import Mathlib

/-
A shallow embedding of the adaptive diff-context reduction core of
llm_code_review (src/review.rs, together with the regex-based argument
rewrite of src/main.rs where the two files differ).  The external
process spawn is abstracted by a function from the argument token list
to the captured result; Rust usize arithmetic is Nat (all quantities
stay far below 2^64 wherever the program runs), and Rust String::len is
the UTF-8 byte length of the text.
-/

/-- UTF-8 encoded size in bytes of a single character, as in the encoding of
a Rust String. -/
def charBytes (c : Char) : Nat :=
  if c.toNat < 128 then 1
  else if c.toNat < 2048 then 2
  else if c.toNat < 65536 then 3
  else 4

/-- Rust String::len: the length of the string in UTF-8 bytes (not in
characters). -/
def rustLen (s : String) : Nat := (s.data.map charBytes).sum

/-- Rust char::is_whitespace: the Unicode White_Space property, true exactly
on the code points U+0009 to U+000D (tab, line feed, vertical tab, form feed,
carriage return), U+0020 (space), U+0085, U+00A0, U+1680, U+2000 to U+200A,
U+2028, U+2029, U+202F, U+205F and U+3000. -/
def rustIsWhitespace (c : Char) : Bool :=
  decide ((9 ≤ c.toNat ∧ c.toNat ≤ 13) ∨ c.toNat = 32 ∨ c.toNat = 133 ∨
    c.toNat = 160 ∨ c.toNat = 5760 ∨ (8192 ≤ c.toNat ∧ c.toNat ≤ 8202) ∨
    c.toNat = 8232 ∨ c.toNat = 8233 ∨ c.toNat = 8239 ∨ c.toNat = 8287 ∨
    c.toNat = 12288)

/-- Helper for split_whitespace: walk the characters; acc holds the current
word reversed, Unicode whitespace flushes the word. -/
def splitWsAux : List Char → List Char → List (List Char)
  | [], acc => if acc.isEmpty then [] else [acc.reverse]
  | c :: cs, acc =>
    if rustIsWhitespace c then
      if acc.isEmpty then splitWsAux cs [] else acc.reverse :: splitWsAux cs []
    else splitWsAux cs (c :: acc)

/-- Rust str::split_whitespace: the words separated by Unicode whitespace
(char::is_whitespace), empty words discarded.  The source applies .trim()
first; trimming only removes leading and trailing whitespace, which
split_whitespace already discards, so the resulting token list is the
same. -/
def rustSplitWhitespace (s : String) : List String :=
  (splitWsAux s.data []).map (fun w => String.mk w)

/-- Rust slice::join(" "): the elements separated by single spaces. -/
def rustJoinSpace : List String → String
  | [] => ""
  | [t] => t
  | t :: ts => t ++ " " ++ rustJoinSpace ts

/-- Rust str::starts_with on strings: the pattern is a character-list
head of the text (equivalent to the byte paraphrase, UTF-8 being
self-synchronizing). -/
def starts_with (s p : String) : Bool := List.isPrefixOf p.data s.data

/-- Captured result of spawning the external command `git diff` with a list of
argument tokens: exit status (success flag) and standard output decoded
permissively as text.  The embedding abstracts the external process as a
function from the tokens to this result. -/
structure GitResult where
  success : Bool
  stdout : String
  deriving DecidableEq

/-- Terminal outcome of the run.  prompt d means the assembled review prompt
containing diff text d is printed to standard output and the process exits
with status 0; noChanges means the notice about no changes being found is
printed and the process exits 0; gitFailed means the captured error text is
logged and the process exits 1; tooLarge means the diagnostic about the diff
being too large is logged and the process exits 1; panicDivZero is the Rust
runtime panic raised by usize division by zero. -/
inductive RunOutcome where
  | prompt (diff : String)
  | noChanges
  | gitFailed
  | tooLarge
  | panicDivZero
  deriving DecidableEq

/-- Result of reduce_context_if_needed, including the two non-local exits the
Rust function can take: the process exit taken when the re-checked estimate is
still over budget, and the runtime panic Rust raises when estimated_tokens is
zero and the reduction divides by it. -/
inductive ReduceResult where
  | noReduction
  | reduced (new_git_args : List String)
  | exitTooLarge
  | panicDivZero
  deriving DecidableEq

/-- review.rs line 222: the token budget constant. -/
def max_tokens : Nat := 50000

/-- review.rs line 223: the characters-per-token approximation constant. -/
def chars_per_token : Nat := 4

/-- The token estimate of review.rs line 123: diff_output.len() divided by
chars_per_token with truncating usize division.  Rust String::len is the
UTF-8 byte length. -/
def estimate (text : String) (cpt : Nat) : Nat := rustLen text / cpt

/-- The over-budget test of review.rs line 150: strict comparison of the
token count against the budget. -/
def is_over_budget (token_count mt : Nat) : Bool := decide (mt < token_count)

/-- review.rs lines 129: the reduced context-line count,
(unified_context * max_tokens / estimated_tokens).max(1). -/
def reduced_context (unified_context mt estimated_tokens : Nat) : Nat :=
  max (unified_context * mt / estimated_tokens) 1

/-- review.rs lines 138-146: the per-token argument rewrite applied inside
reduce_context_if_needed.  Any token starting with "-U" becomes the short
flag carrying the reduced count, any other token starting with "--unified="
becomes the long flag carrying it, all other tokens are cloned unchanged. -/
def rewrite_arg (rc : Nat) (arg : String) : String :=
  if starts_with arg "-U" then "-U" ++ toString rc
  else if starts_with arg "--unified=" then "--unified=" ++ toString rc
  else arg

/-- review.rs lines 114-156, reduce_context_if_needed.  The Rust function
returns Option of a new argument vector but can also leave through
process::exit(1) (diff too large) or through the division-by-zero panic when
estimated_tokens is 0 and force_reduced was set; those exits are the extra
constructors of ReduceResult. -/
def reduce_context_if_needed (git_args : List String) (unified_context : Nat)
    (force_reduced : Bool) (diff_output : String)
    (mt cpt : Nat) : ReduceResult :=
  let estimated_tokens := estimate diff_output cpt
  if estimated_tokens ≤ mt ∧ force_reduced = false then
    ReduceResult.noReduction
  else if estimated_tokens = 0 then
    ReduceResult.panicDivZero
  else
    let rc := reduced_context unified_context mt estimated_tokens
    let new_git_args := git_args.map (rewrite_arg rc)
    let new_estimated_tokens := estimate diff_output cpt
    if is_over_budget new_estimated_tokens mt then ReduceResult.exitTooLarge
    else ReduceResult.reduced new_git_args

/-- review.rs lines 87-112, get_git_diff: split the single argument string on
whitespace, spawn `git diff` with the resulting tokens, then take the
failure exit on nonzero status, the no-changes exit on empty output, and
otherwise return the captured diff text.  The second component is the token
list handed to the external command, kept so that theorems can speak about
the exact invocations performed. -/
def get_git_diff (git : List String → GitResult) (git_args : String) :
    Except RunOutcome String × List String :=
  let toks := rustSplitWhitespace git_args
  let output := git toks
  if output.success = false then (Except.error RunOutcome.gitFailed, toks)
  else if rustLen output.stdout = 0 then (Except.error RunOutcome.noChanges, toks)
  else (Except.ok output.stdout, toks)

/-- review.rs lines 225-228: the argument vector built by run, the context
flag followed by the remaining caller arguments joined into one
space-separated string. -/
def git_args_vec (unified_context : Nat) (remaining_args : List String) : List String :=
  ["-U" ++ toString unified_context, rustJoinSpace remaining_args]

/-- review.rs lines 225-243, the diff pipeline of run: build the argument
vector, invoke get_git_diff on the space-joined vector, run
reduce_context_if_needed with the budget constants, on a reduced argument
vector invoke get_git_diff once more (again on the space-joined vector) and
let its output replace the first, then print the prompt built around the
final diff text.  Returns the terminal outcome together with the token lists
passed to the external command, in order.  (The logging statements and the
show-system-prompt early exit of run are pure output and precede this
pipeline.) -/
def run_diff (git : List String → GitResult) (unified_context : Nat)
    (force_reduced : Bool) (remaining_args : List String) :
    RunOutcome × List (List String) :=
  let args := git_args_vec unified_context remaining_args
  match get_git_diff git (rustJoinSpace args) with
  | (Except.error out, toks) => (out, [toks])
  | (Except.ok diff_output, toks1) =>
    match reduce_context_if_needed args unified_context force_reduced diff_output
        max_tokens chars_per_token with
    | ReduceResult.noReduction => (RunOutcome.prompt diff_output, [toks1])
    | ReduceResult.panicDivZero => (RunOutcome.panicDivZero, [toks1])
    | ReduceResult.exitTooLarge => (RunOutcome.tooLarge, [toks1])
    | ReduceResult.reduced new_args =>
      match get_git_diff git (rustJoinSpace new_args) with
      | (Except.error out, toks2) => (out, [toks1, toks2])
      | (Except.ok d2, toks2) => (RunOutcome.prompt d2, [toks1, toks2])

/-- main.rs line 221: the anchored regex for the short context flag, a
context flag immediately followed by one or more digits.  This coincides
with the short form described by the specification. -/
def matches_short_form (arg : String) : Bool :=
  arg.data.take 2 == "-U".data
    && !((arg.data.drop 2).isEmpty) && (arg.data.drop 2).all Char.isDigit

/-- main.rs line 223: the anchored regex for the long context flag, the
equals-separated flag with a numeric value.  This coincides with the long
form described by the specification. -/
def matches_long_form (arg : String) : Bool :=
  arg.data.take 10 == "--unified=".data
    && !((arg.data.drop 10).isEmpty) && (arg.data.drop 10).all Char.isDigit

/-- main.rs lines 220-228: the per-token argument rewrite of the binary
crate, which anchors on the full regexes instead of the bare parts of the
library rewrite. -/
def rewrite_arg_main (rc : Nat) (arg : String) : String :=
  if matches_short_form arg then "-U" ++ toString rc
  else if matches_long_form arg then "--unified=" ++ toString rc
  else arg

/-- The token estimator as the specification words it: the number of
characters of the text divided by chars_per_token (truncating).  Stated for
comparison with the estimate of the code, which divides the UTF-8 byte
length. -/
def estimate_spec_chars (text : String) (cpt : Nat) : Nat := text.length / cpt

/-- A diff text of n copies of a one-byte character, used to instantiate
the scenarios of the specification on concrete inputs. -/
def bigA (n : Nat) : String := String.mk (List.replicate n 'a')

theorem charBytes_a : charBytes 'a' = 1 := by decide

theorem rustLen_replicate_a (n : Nat) : rustLen (bigA n) = n := by
  simp [rustLen, bigA, List.map_replicate, List.sum_replicate, smul_eq_mul, charBytes_a]

theorem estimate_bigA (n c : Nat) : estimate (bigA n) c = n / c := by
  unfold estimate
  rw [rustLen_replicate_a]

theorem data_append (s u : String) : (s ++ u).data = s.data ++ u.data := rfl

theorem get_git_diff_ok (git : List String → GitResult) (gargs d : String)
    (h : git (rustSplitWhitespace gargs) = ⟨true, d⟩) (hne : rustLen d ≠ 0) :
    get_git_diff git gargs = (Except.ok d, rustSplitWhitespace gargs) := by
  simp [get_git_diff, h, hne]

theorem get_git_diff_empty (git : List String → GitResult) (gargs : String)
    (hs : (git (rustSplitWhitespace gargs)).success = true)
    (he : rustLen (git (rustSplitWhitespace gargs)).stdout = 0) :
    get_git_diff git gargs = (Except.error RunOutcome.noChanges, rustSplitWhitespace gargs) := by
  simp [get_git_diff, hs, he]

theorem reduce_eq_noReduction (git_args : List String) (u : Nat) (d : String) (m c : Nat)
    (h : estimate d c ≤ m) :
    reduce_context_if_needed git_args u false d m c = ReduceResult.noReduction := by
  simp [reduce_context_if_needed, h]

theorem reduce_eq_exit (git_args : List String) (u : Nat) (force : Bool) (d : String)
    (m c : Nat) (h : m < estimate d c) :
    reduce_context_if_needed git_args u force d m c = ReduceResult.exitTooLarge := by
  have h1 : ¬ (estimate d c ≤ m ∧ force = false) := by
    intro hc
    exact absurd hc.1 (not_le.mpr h)
  have h2 : estimate d c ≠ 0 := by omega
  simp [reduce_context_if_needed, h1, h2, is_over_budget, h]

theorem reduce_eq_reduced (git_args : List String) (u : Nat) (d : String) (m c : Nat)
    (hpos : 0 < estimate d c) (hle : estimate d c ≤ m) :
    reduce_context_if_needed git_args u true d m c =
      ReduceResult.reduced (git_args.map (rewrite_arg (reduced_context u m (estimate d c)))) := by
  have h2 : estimate d c ≠ 0 := by omega
  have h3 : is_over_budget (estimate d c) m = false := by
    simp [is_over_budget, not_lt.mpr hle]
  simp [reduce_context_if_needed, h2, h3]

theorem run_diff_over_budget (git : List String → GitResult) (u : Nat) (force : Bool)
    (rem : List String) (d : String)
    (hgit : git (rustSplitWhitespace (rustJoinSpace (git_args_vec u rem))) = ⟨true, d⟩)
    (hne : rustLen d ≠ 0)
    (hover : max_tokens < estimate d chars_per_token) :
    run_diff git u force rem =
      (RunOutcome.tooLarge, [rustSplitWhitespace (rustJoinSpace (git_args_vec u rem))]) := by
  have hok := get_git_diff_ok git (rustJoinSpace (git_args_vec u rem)) d hgit hne
  have hred := reduce_eq_exit (git_args_vec u rem) u force d max_tokens chars_per_token hover
  simp [run_diff, hok, hred]

/-- An external diff source producing 400,000 bytes of output on every
invocation, instantiating the over-budget scenario of the specification. -/
def gitBig : List String → GitResult := fun _ => ⟨true, bigA 400000⟩

/-- An external diff source producing 8 bytes of output on every invocation
(estimated tokens 2, well under budget). -/
def gitSmall : List String → GitResult := fun _ => ⟨true, "aaaaaaaa"⟩

/-- An external diff source producing 120,000 bytes of output on every
invocation, instantiating the under-budget scenario of the specification. -/
def gitMed : List String → GitResult := fun _ => ⟨true, bigA 120000⟩

/-- An external diff source exiting successfully with empty output. -/
def gitEmpty : List String → GitResult := fun _ => ⟨true, ""⟩

/-- C2: for every current context-line count and every positive estimated
token count, the reduced context-line count computed by the reducer equals
max(1, floor(current_context_lines * max_tokens / estimated_tokens)) — the
floor taken of the exact rational quotient — and is therefore at least 1. -/
theorem C2_reduced_context_formula (u est : Nat) (hest : 0 < est) :
    reduced_context u max_tokens est =
      max 1 (Nat.floor (((u * max_tokens : Nat) : ℚ) / ((est : Nat) : ℚ))) ∧
    1 ≤ reduced_context u max_tokens est := by
  constructor
  · rw [Nat.floor_div_eq_div]
    unfold reduced_context
    exact max_comm _ _
  · exact le_max_right _ _

theorem C2_witness :
    0 < 100000 ∧
      (reduced_context 10 max_tokens 100000 =
        max 1 (Nat.floor (((10 * max_tokens : Nat) : ℚ) / ((100000 : Nat) : ℚ))) ∧
       1 ≤ reduced_context 10 max_tokens 100000) :=
  ⟨by decide, C2_reduced_context_formula 10 100000 (by decide)⟩

/-- C3: whenever the first successful diff invocation captures nonempty
output whose byte count divided by chars_per_token strictly exceeds
max_tokens, the run terminates with the fatal diff-too-large outcome (process
exit status 1, diagnostic on the error stream, no prompt) after exactly one
external invocation, so no second diff invocation is spent. -/
theorem C3_over_budget_fatal (git : List String → GitResult) (u : Nat) (force : Bool)
    (rem : List String) (d : String)
    (hgit : git (rustSplitWhitespace (rustJoinSpace (git_args_vec u rem))) = ⟨true, d⟩)
    (hne : rustLen d ≠ 0)
    (hover : max_tokens < estimate d chars_per_token) :
    run_diff git u force rem =
      (RunOutcome.tooLarge, [rustSplitWhitespace (rustJoinSpace (git_args_vec u rem))]) :=
  run_diff_over_budget git u force rem d hgit hne hover

theorem C3_witness :
    run_diff gitBig 10 false [] = (RunOutcome.tooLarge, [["-U10"]]) := by
  have h := C3_over_budget_fatal gitBig 10 false [] (bigA 400000) rfl
    (by rw [rustLen_replicate_a]; decide)
    (by rw [estimate_bigA]; decide)
  rw [h]
  decide

/-- C4 (amended): the token estimate of a diff text equals its UTF-8 byte
length divided by chars_per_token with truncating integer division (the floor
of the exact rational quotient), the over-budget test is the strict
comparison token_count > max_tokens, and the constants are
max_tokens = 50,000 and chars_per_token = 4. -/
theorem C4_estimator_contract :
    (∀ text : String, estimate text chars_per_token =
        Nat.floor (((rustLen text : Nat) : ℚ) / ((chars_per_token : Nat) : ℚ))) ∧
    (∀ t m : Nat, is_over_budget t m = true ↔ m < t) ∧
    max_tokens = 50000 ∧ chars_per_token = 4 := by
  refine ⟨?_, ?_, rfl, rfl⟩
  · intro text
    rw [Nat.floor_div_eq_div]
    rfl
  · intro t m
    simp [is_over_budget]

/-- C4 counterexample: on an eight-character diff text of two-byte
characters, the estimate of the code (byte length divided by 4) is 4, while
the character length divided by 4 — what the claim states — is 2. -/
theorem C4_counterexample :
    estimate "éééééééé" chars_per_token ≠ estimate_spec_chars "éééééééé" chars_per_token ∧
    estimate "éééééééé" chars_per_token = 4 ∧
    estimate_spec_chars "éééééééé" chars_per_token = 2 := by decide

/-- C6: with the force-reduce flag set and a diff whose estimated token count
is zero (here a two-byte diff text), the reducer reaches the division
`unified_context * max_tokens / estimated_tokens` with a zero divisor, which
in Rust is a runtime panic — it does not return none; without the force flag
the same input does return none. -/
theorem C6_division_by_zero :
    reduce_context_if_needed (git_args_vec 3 []) 3 true "ab" max_tokens chars_per_token =
      ReduceResult.panicDivZero ∧
    reduce_context_if_needed (git_args_vec 3 []) 3 false "ab" max_tokens chars_per_token =
      ReduceResult.noReduction ∧
    estimate "ab" chars_per_token = 0 := by decide

/-- C7: whenever the first successful diff invocation captures nonempty
output whose estimated token count is within budget and the force-reduce flag
is not set, the run performs no further invocation and hands exactly the
first invocation's diff text to the prompt assembler, unchanged. -/
theorem C7_under_budget_unchanged (git : List String → GitResult) (u : Nat)
    (rem : List String) (d : String)
    (hgit : git (rustSplitWhitespace (rustJoinSpace (git_args_vec u rem))) = ⟨true, d⟩)
    (hne : rustLen d ≠ 0)
    (hle : estimate d chars_per_token ≤ max_tokens) :
    run_diff git u false rem =
      (RunOutcome.prompt d, [rustSplitWhitespace (rustJoinSpace (git_args_vec u rem))]) := by
  have hok := get_git_diff_ok git (rustJoinSpace (git_args_vec u rem)) d hgit hne
  have hred := reduce_eq_noReduction (git_args_vec u rem) u d max_tokens chars_per_token hle
  simp [run_diff, hok, hred]

theorem C7_witness :
    estimate (bigA 120000) chars_per_token = 30000 ∧
    run_diff gitMed 3 false [] = (RunOutcome.prompt (bigA 120000), [["-U3"]]) := by
  constructor
  · rw [estimate_bigA]
    decide
  · have h := C7_under_budget_unchanged gitMed 3 [] (bigA 120000) rfl
      (by rw [rustLen_replicate_a]; decide)
      (by rw [estimate_bigA]; decide)
    rw [h]
    have htok : rustSplitWhitespace (rustJoinSpace (git_args_vec 3 [])) = ["-U3"] := by decide
    rw [htok]

/-- C8: for every invocation whose captured standard output is empty and
whose exit status is success, get_git_diff takes the no-changes exit — the
notice is printed and the process exits with status 0, producing no prompt;
in particular a run whose first invocation is empty-and-successful terminates
that way after that single invocation. -/
theorem C8_empty_success_no_changes (git : List String → GitResult) (u : Nat)
    (force : Bool) (rem : List String)
    (hs : (git (rustSplitWhitespace (rustJoinSpace (git_args_vec u rem)))).success = true)
    (he : rustLen (git (rustSplitWhitespace (rustJoinSpace (git_args_vec u rem)))).stdout = 0) :
    run_diff git u force rem =
      (RunOutcome.noChanges, [rustSplitWhitespace (rustJoinSpace (git_args_vec u rem))]) ∧
    (∀ gargs : String, (git (rustSplitWhitespace gargs)).success = true →
      rustLen (git (rustSplitWhitespace gargs)).stdout = 0 →
      get_git_diff git gargs = (Except.error RunOutcome.noChanges, rustSplitWhitespace gargs)) := by
  constructor
  · have hget := get_git_diff_empty git (rustJoinSpace (git_args_vec u rem)) hs he
    simp [run_diff, hget]
  · intro gargs h1 h2
    exact get_git_diff_empty git gargs h1 h2

theorem C8_witness :
    run_diff gitEmpty 3 false [] = (RunOutcome.noChanges, [["-U3"]]) := by
  have h := (C8_empty_success_no_changes gitEmpty 3 false [] rfl (by decide)).1
  rw [h]
  decide

/-- C10: when the force-reduce flag is set and the estimated token count is
positive and within budget, the computed quotient
current_context_lines * max_tokens / estimated_tokens is at least the
original context-line count, hence so is the reduced count the arguments are
rewritten with: the forced reduction enlarges (or keeps equal) the context
window carried into the second invocation. -/
theorem C10_forced_enlarges (git_args : List String) (u : Nat) (d : String)
    (hpos : 0 < estimate d chars_per_token)
    (hle : estimate d chars_per_token ≤ max_tokens) :
    u ≤ u * max_tokens / estimate d chars_per_token ∧
    u ≤ reduced_context u max_tokens (estimate d chars_per_token) ∧
    reduce_context_if_needed git_args u true d max_tokens chars_per_token =
      ReduceResult.reduced (git_args.map (rewrite_arg
        (reduced_context u max_tokens (estimate d chars_per_token)))) := by
  have h1 : u ≤ u * max_tokens / estimate d chars_per_token := by
    rw [Nat.le_div_iff_mul_le hpos]
    exact Nat.mul_le_mul (le_refl u) hle
  exact ⟨h1, le_trans h1 (le_max_left _ _),
    reduce_eq_reduced git_args u d max_tokens chars_per_token hpos hle⟩

theorem C10_witness :
    3 ≤ 3 * max_tokens / estimate (bigA 8) chars_per_token ∧
    3 ≤ reduced_context 3 max_tokens (estimate (bigA 8) chars_per_token) ∧
    reduce_context_if_needed ["-U10", "main"] 3 true (bigA 8) max_tokens chars_per_token =
      ReduceResult.reduced (["-U10", "main"].map (rewrite_arg
        (reduced_context 3 max_tokens (estimate (bigA 8) chars_per_token)))) :=
  C10_forced_enlarges ["-U10", "main"] 3 (bigA 8) (by decide) (by decide)

/-- C1 (amended): a second diff invocation occurs exactly when the reducer
returns rewritten arguments, which happens when the force-reduce flag is set
and the first invocation's estimated token count is positive and within
budget; in that case DiffInvoker is called exactly once more with the
space-joined rewritten arguments and the second result replaces the first
unconditionally, whatever its size.  (When the estimate exceeds max_tokens
the run instead terminates fatally before a second invocation; in the
400,000-character scenario the reduced count 5 and the rewrite of -U10 to
-U5 are computed, but exit 1 occurs first — see the counterexample.) -/
theorem C1_forced_reinvocation (git : List String → GitResult) (u : Nat)
    (rem : List String) (d d2 : String)
    (hgit : git (rustSplitWhitespace (rustJoinSpace (git_args_vec u rem))) = ⟨true, d⟩)
    (hne : rustLen d ≠ 0)
    (hpos : 0 < estimate d chars_per_token)
    (hle : estimate d chars_per_token ≤ max_tokens)
    (hgit2 : git (rustSplitWhitespace (rustJoinSpace ((git_args_vec u rem).map
        (rewrite_arg (reduced_context u max_tokens (estimate d chars_per_token)))))) =
      ⟨true, d2⟩)
    (hne2 : rustLen d2 ≠ 0) :
    run_diff git u true rem =
      (RunOutcome.prompt d2,
        [rustSplitWhitespace (rustJoinSpace (git_args_vec u rem)),
         rustSplitWhitespace (rustJoinSpace ((git_args_vec u rem).map
           (rewrite_arg (reduced_context u max_tokens (estimate d chars_per_token)))))]) := by
  have hok := get_git_diff_ok git (rustJoinSpace (git_args_vec u rem)) d hgit hne
  have hred := reduce_eq_reduced (git_args_vec u rem) u d max_tokens chars_per_token hpos hle
  have hok2 := get_git_diff_ok git (rustJoinSpace ((git_args_vec u rem).map
      (rewrite_arg (reduced_context u max_tokens (estimate d chars_per_token))))) d2 hgit2 hne2
  simp [run_diff, hok, hred, hok2]

theorem C1_witness :
    run_diff gitSmall 3 true [] =
      (RunOutcome.prompt "aaaaaaaa", [["-U3"], ["-U75000"]]) := by
  have h := C1_forced_reinvocation gitSmall 3 [] "aaaaaaaa" "aaaaaaaa" rfl
    (by decide) (by decide) (by decide) rfl (by decide)
  rw [h]
  decide

/-- C1 counterexample: in the claim's own scenario — first diff output of
400,000 characters, chars_per_token 4, max_tokens 50,000, context lines 10,
arguments ["-U10", "main"] — the reduced count 5 and the rewritten arguments
["-U5", "main"] are indeed computed, but the run terminates with the fatal
diff-too-large outcome after exactly one external invocation: DiffInvoker is
never called a second time, contradicting the claimed reinvocation. -/
theorem C1_counterexample :
    run_diff gitBig 10 false ["main"] = (RunOutcome.tooLarge, [["-U10", "main"]]) ∧
    estimate (bigA 400000) chars_per_token = 100000 ∧
    reduced_context 10 max_tokens 100000 = 5 ∧
    ["-U10", "main"].map (rewrite_arg 5) = ["-U5", "main"] := by
  refine ⟨?_, by rw [estimate_bigA]; decide, by decide, by decide⟩
  have h := run_diff_over_budget gitBig 10 false ["main"] (bigA 400000) rfl
    (by rw [rustLen_replicate_a]; decide)
    (by rw [estimate_bigA]; decide)
  rw [h]
  decide

theorem isPre_of_take : ∀ (p l : List Char), l.take p.length = p → List.isPrefixOf p l = true := by
  intro p
  induction p with
  | nil =>
    intro l _
    cases l <;> rfl
  | cons a as ih =>
    intro l h
    cases l with
    | nil => simp at h
    | cons b bs =>
      rw [List.length_cons, List.take_succ_cons] at h
      injection h with h1 h2
      subst h1
      simp [List.isPrefixOf, ih bs h2]

theorem take_of_isPre : ∀ (p l : List Char), List.isPrefixOf p l = true → l.take p.length = p := by
  intro p
  induction p with
  | nil =>
    intro l _
    rfl
  | cons a as ih =>
    intro l h
    cases l with
    | nil => simp [List.isPrefixOf] at h
    | cons b bs =>
      simp only [List.isPrefixOf, Bool.and_eq_true] at h
      obtain ⟨h1, h2⟩ := h
      have hab : a = b := eq_of_beq h1
      subst hab
      rw [List.length_cons, List.take_succ_cons, ih bs h2]

theorem short_form_starts (arg : String) (h : matches_short_form arg = true) :
    starts_with arg "-U" = true := by
  unfold matches_short_form at h
  simp only [Bool.and_eq_true] at h
  obtain ⟨⟨h1, _⟩, _⟩ := h
  have htake : arg.data.take 2 = "-U".data := eq_of_beq h1
  unfold starts_with
  apply isPre_of_take
  have hlen : ("-U".data).length = 2 := by decide
  rw [hlen]
  exact htake

theorem long_form_starts (arg : String) (h : matches_long_form arg = true) :
    starts_with arg "--unified=" = true ∧ starts_with arg "-U" = false := by
  unfold matches_long_form at h
  simp only [Bool.and_eq_true] at h
  obtain ⟨⟨h1, _⟩, _⟩ := h
  have htake : arg.data.take 10 = "--unified=".data := eq_of_beq h1
  constructor
  · unfold starts_with
    apply isPre_of_take
    have hlen : ("--unified=".data).length = 10 := by decide
    rw [hlen]
    exact htake
  · unfold starts_with
    cases hb : List.isPrefixOf "-U".data arg.data
    · rfl
    · exfalso
      have ht2 := take_of_isPre "-U".data arg.data hb
      have hlen : ("-U".data).length = 2 := by decide
      rw [hlen] at ht2
      have hmin : (2 : Nat) ⊓ 10 = 2 := by decide
      have hcontr : arg.data.take 2 = ("--unified=".data).take 2 := by
        rw [← htake, List.take_take, hmin]
      rw [ht2] at hcontr
      have hne : "-U".data ≠ ("--unified=".data).take 2 := by decide
      exact hne hcontr

/-- C5 (amended): the library's argument rewrite replaces every token
matching the short form (context flag immediately followed by one or more
digits) with the short form carrying the reduced value, every token matching
the long form (equals-separated flag with a numeric value) with the long form
carrying it, and copies every token starting with neither flag spelling
byte-identically; order and position are preserved, the rewrite being an
element-wise map.  (Unlike the claim, the matched set is larger than the two
anchored forms: any token merely starting with "-U" or "--unified=" is also
replaced — see the counterexample.) -/
theorem C5_rewrite_characterization (r : Nat) (arg : String) :
    (matches_short_form arg = true → rewrite_arg r arg = "-U" ++ toString r) ∧
    (matches_long_form arg = true → rewrite_arg r arg = "--unified=" ++ toString r) ∧
    (starts_with arg "-U" = false → starts_with arg "--unified=" = false →
      rewrite_arg r arg = arg) ∧
    (∀ args : List String, (args.map (rewrite_arg r)).length = args.length) := by
  refine ⟨?_, ?_, ?_, fun args => List.length_map args _⟩
  · intro h
    simp [rewrite_arg, short_form_starts arg h]
  · intro h
    obtain ⟨h1, h2⟩ := long_form_starts arg h
    simp [rewrite_arg, h1, h2]
  · intro h1 h2
    simp [rewrite_arg, h1, h2]

theorem C5_witness :
    rewrite_arg 5 "-U10" = "-U" ++ toString 5 ∧ rewrite_arg 5 "main" = "main" :=
  ⟨(C5_rewrite_characterization 5 "-U10").1 (by decide),
   (C5_rewrite_characterization 5 "main").2.2.1 (by decide) (by decide)⟩

/-- C5 counterexample: the token "-Ufoo" matches neither the short form (no
digits after the flag) nor the long form, yet the library's rewrite does not
copy it byte-identically — it is replaced wholesale by "-U2" — contradicting
the claim that exactly the tokens matching the two forms are replaced. -/
theorem C5_counterexample :
    matches_short_form "-Ufoo" = false ∧ matches_long_form "-Ufoo" = false ∧
    ["-Ufoo"].map (rewrite_arg 2) = ["-U2"] ∧
    ["-Ufoo"].map (rewrite_arg 2) ≠ ["-Ufoo"] := by decide

theorem splitWsAux_word (w : List Char) (hw : ∀ c ∈ w, rustIsWhitespace c = false) :
    ∀ (cs acc : List Char), splitWsAux (w ++ cs) acc = splitWsAux cs (w.reverse ++ acc) := by
  induction w with
  | nil =>
    intro cs acc
    simp
  | cons c w ih =>
    intro cs acc
    have hc : rustIsWhitespace c = false := hw c (List.mem_cons_self c w)
    have hw' : ∀ x ∈ w, rustIsWhitespace x = false := fun x hx => hw x (List.mem_cons_of_mem c hx)
    rw [List.cons_append]
    simp only [splitWsAux, hc]
    rw [ih hw' cs (c :: acc)]
    simp [List.append_assoc]

theorem rustSplit_join : ∀ (toks : List String),
    (∀ t ∈ toks, t.data ≠ [] ∧ ∀ c ∈ t.data, rustIsWhitespace c = false) →
    rustSplitWhitespace (rustJoinSpace toks) = toks := by
  intro toks
  induction toks with
  | nil =>
    intro _
    rfl
  | cons t ts ih =>
    intro h
    have ht := h t (List.mem_cons_self t ts)
    have hrevne : t.data.reverse ≠ [] := by
      intro hco
      apply ht.1
      have := congrArg List.reverse hco
      simpa using this
    cases ts with
    | nil =>
      unfold rustSplitWhitespace
      have hw := splitWsAux_word t.data ht.2 [] []
      rw [List.append_nil] at hw
      show (splitWsAux (rustJoinSpace [t]).data []).map (fun w => String.mk w) = [t]
      have hone : rustJoinSpace [t] = t := rfl
      rw [hone, hw, List.append_nil]
      simp only [splitWsAux, List.isEmpty_eq_false.mpr hrevne]
      simp
    | cons t2 ts2 =>
      have hts : ∀ x ∈ t2 :: ts2, x.data ≠ [] ∧ ∀ c ∈ x.data, rustIsWhitespace c = false :=
        fun x hx => h x (List.mem_cons_of_mem t hx)
      have hjoin : rustJoinSpace (t :: t2 :: ts2) = t ++ " " ++ rustJoinSpace (t2 :: ts2) := rfl
      unfold rustSplitWhitespace
      rw [hjoin]
      have hspd : (" ".data : List Char) = [' '] := by decide
      have hdata : (t ++ " " ++ rustJoinSpace (t2 :: ts2)).data
          = t.data ++ (' ' :: (rustJoinSpace (t2 :: ts2)).data) := by
        rw [data_append, data_append, List.append_assoc, hspd]
        rfl
      rw [hdata]
      rw [splitWsAux_word t.data ht.2 (' ' :: (rustJoinSpace (t2 :: ts2)).data) []]
      rw [List.append_nil]
      have hsp : rustIsWhitespace ' ' = true := by decide
      simp only [splitWsAux, hsp, if_true, List.isEmpty_eq_false.mpr hrevne]
      simp only [Bool.false_eq_true, if_false, List.map_cons, List.reverse_reverse]
      have hih := ih hts
      unfold rustSplitWhitespace at hih
      rw [hih]

/-- C9 (amended): the argument tokens are not carried discretely — run joins
them into one space-separated string and get_git_diff re-splits that string
on Unicode whitespace (char::is_whitespace) before the external command is
spawned.  For nonempty tokens free of Unicode whitespace the join-then-split
roundtrip reproduces the caller's tokens exactly, but a pass-through token
containing any Unicode whitespace character reaches the diff command as
multiple tokens (see the counterexample). -/
theorem C9_join_then_split (toks : List String)
    (h : ∀ t ∈ toks, t.data ≠ [] ∧ ∀ c ∈ t.data, rustIsWhitespace c = false) :
    rustSplitWhitespace (rustJoinSpace toks) = toks ∧
    ∀ (git : List String → GitResult) (gargs : String),
      (get_git_diff git gargs).2 = rustSplitWhitespace gargs := by
  refine ⟨rustSplit_join toks h, ?_⟩
  intro git gargs
  unfold get_git_diff
  dsimp only
  split
  · rfl
  · split <;> rfl

theorem C9_witness :
    rustSplitWhitespace (rustJoinSpace ["-U3", "main"]) = ["-U3", "main"] :=
  (C9_join_then_split ["-U3", "main"] (by decide)).1

/-- C9 counterexample: with the single caller-supplied pass-through token
"my file.txt", the one external invocation of the run receives the three
tokens "-U3", "my", "file.txt" — the whitespace-carrying token was split
apart on its way to the diff command, contradicting the claim that it
reaches the command as one token.  The same happens with non-ASCII-space
Unicode whitespace: a token carrying a vertical tab (U+000B) is split
apart as well, since the re-split uses the full Unicode White_Space set. -/
theorem C9_counterexample :
    (run_diff gitEmpty 3 false ["my file.txt"]).2 = [["-U3", "my", "file.txt"]] ∧
    "my file.txt" ∉ ["-U3", "my", "file.txt"] ∧
    (run_diff gitEmpty 3 false ["a\x0Bb"]).2 = [["-U3", "a", "b"]] ∧
    "a\x0Bb" ∉ ["-U3", "a", "b"] := by decide
